import Mathlib

/-!
Verification development for the Open3D KD-tree search engine
(`KDTreeFlann.cpp`: `SearchKNN`, `SearchRadius`, `SearchHybrid`,
`SearchNNChain`, `SetRawData`) and the multi-scale ICP demo driver
(`DemoTMultiScaleICP.cpp`: the per-scale convergence loop, config
validation, pyramid construction, and
`GetRegistrationResultAndCorrespondences`).

Modelling conventions:
* C++ `double` values are modelled by an arbitrary linearly ordered
  commutative ring `α` (a linearly ordered field `F` where division
  occurs).  All comparisons in the modelled code are exact order
  comparisons, so this is faithful up to floating-point rounding.
* The flann/nanoflann backends are modelled extensionally: a k-NN query
  returns the `k` pairs `(index, squared distance)` with smallest
  squared distance, sorted by non-decreasing squared distance (ties
  broken by index), and a radius query returns all pairs with squared
  distance strictly below the given squared radius, sorted the same
  way.
* A C++ search routine that writes into caller-supplied output vectors
  and returns a count, or returns `-1` leaving the vectors untouched,
  is modelled as a function returning `Option (List (Nat × α))`:
  `none` models the `-1` error signal (with the outputs unchanged),
  `some l` models success with `l.length` results.
-/

set_option linter.unusedSectionVars false

variable {α : Type} [LinearOrderedCommRing α]

/-- A point, as a list of coordinates (one per dimension). -/
abbrev Pt (α : Type) := List α

/-- Squared Euclidean distance between two coordinate lists. -/
def sqDist (p q : Pt α) : α := (List.zipWith (fun a b => (a - b) ^ 2) p q).sum

/-- The KD-tree state of `KDTreeFlann`: the dimension, the dataset size
and a copy of the flattened coordinate buffer (point `j` occupies
entries `j*dimension_ .. j*dimension_ + dimension_ - 1`), as set up by
`KDTreeFlann::SetRawData`. -/
structure KDTreeFlann (α : Type) where
  dimension_ : Nat
  dataset_size_ : Nat
  data_ : List α
deriving DecidableEq

/-- Model of `KDTreeFlann::SetRawData`: fails (returns `false` in C++)
when the dimension or the dataset size is zero, otherwise stores the
buffer and builds the index. -/
def SetRawData (dimension dataset_size : Nat) (data : List α) :
    Option (KDTreeFlann α) :=
  if dimension = 0 ∨ dataset_size = 0 then none
  else some ⟨dimension, dataset_size, data⟩

/-- A default-constructed `KDTreeFlann`, before any successful `Build`:
empty buffer, zero dimension and size. -/
def KDTreeFlann.unbuilt (α : Type) : KDTreeFlann α := ⟨0, 0, []⟩

/-- Point number `j` of the dataset (reads `dimension_` consecutive
entries of the flattened buffer). -/
def KDTreeFlann.point (t : KDTreeFlann α) (j : Nat) : Pt α :=
  (t.data_.drop (j * t.dimension_)).take t.dimension_

/-- The three coordinates `data_[ind*3 + 0..2]` gathered by
`SearchNNChain` when it builds the next frontier (the stride 3 is
hard-coded in the source, independent of `dimension_`). -/
def KDTreeFlann.chainPoint (t : KDTreeFlann α) (j : Nat) : Pt α :=
  (t.data_.drop (j * 3)).take 3

/-- Ordering used to model the backend's sorted result sets: by squared
distance, ties broken by index. -/
def DistLe (a b : Nat × α) : Prop := a.2 < b.2 ∨ (a.2 = b.2 ∧ a.1 ≤ b.1)

instance : DecidableRel (DistLe (α := α)) := fun a b => by
  unfold DistLe; infer_instance

instance : IsTotal (Nat × α) DistLe := by
  constructor
  intro a b
  rcases lt_trichotomy a.2 b.2 with h | h | h
  · exact Or.inl (Or.inl h)
  · rcases Nat.le_total a.1 b.1 with h2 | h2
    · exact Or.inl (Or.inr ⟨h, h2⟩)
    · exact Or.inr (Or.inr ⟨h.symm, h2⟩)
  · exact Or.inr (Or.inl h)

instance : IsTrans (Nat × α) DistLe := by
  constructor
  intro a b c hab hbc
  rcases hab with h1 | ⟨h1, h1'⟩ <;> rcases hbc with h2 | ⟨h2, h2'⟩
  · exact Or.inl (h1.trans h2)
  · exact Or.inl (h2 ▸ h1)
  · exact Or.inl (h1 ▸ h2)
  · exact Or.inr ⟨h1.trans h2, h1'.trans h2'⟩

/-- Sort `(index, squared distance)` pairs by non-decreasing squared
distance (ties by index). -/
def sortPairs (l : List (Nat × α)) : List (Nat × α) :=
  List.insertionSort DistLe l

/-- All `(index, squared distance)` pairs of the dataset relative to a
query point. -/
def allPairs (t : KDTreeFlann α) (query : Pt α) : List (Nat × α) :=
  (List.range t.dataset_size_).map fun j => (j, sqDist query (t.point j))

/-- Model of the backend k-NN search: the `k` closest dataset points,
sorted by non-decreasing squared distance. -/
def knnSearchPairs (t : KDTreeFlann α) (query : Pt α) (k : Nat) :
    List (Nat × α) :=
  (sortPairs (allPairs t query)).take k

/-- Model of the backend radius search with squared radius `r2`: all
points with squared distance strictly below `r2`, sorted by
non-decreasing squared distance. -/
def radiusSearchPairs (t : KDTreeFlann α) (query : Pt α) (r2 : α) :
    List (Nat × α) :=
  sortPairs ((allPairs t query).filter fun p => decide (p.2 < r2))

/-- Model of `KDTreeFlann::SearchKNN` (KDTreeFlann.cpp lines 160-181):
guard `data_.empty() || dataset_size_ <= 0 || query.rows() != dimension_
|| knn < 0` returns `-1` (modelled `none`); otherwise the backend k-NN
result, truncated to the returned count `k`. -/
def KDTreeFlann.SearchKNN (t : KDTreeFlann α) (query : Pt α) (knn : Int) :
    Option (List (Nat × α)) :=
  if t.data_ = [] ∨ t.dataset_size_ = 0 ∨ query.length ≠ t.dimension_ ∨
      knn < 0 then none
  else some (knnSearchPairs t query knn.toNat)

/-- Model of `KDTreeFlann::SearchRadius` (lines 183-207): guard without
any constraint on `radius`; searches with squared radius
`radius * radius`. -/
def KDTreeFlann.SearchRadius (t : KDTreeFlann α) (query : Pt α)
    (radius : α) : Option (List (Nat × α)) :=
  if t.data_ = [] ∨ t.dataset_size_ = 0 ∨ query.length ≠ t.dimension_ then
    none
  else some (radiusSearchPairs t query (radius * radius))

/-- Model of `KDTreeFlann::SearchHybrid` (lines 209-234): k-NN with
`k = max_nn`, then `std::lower_bound` over the sorted squared distances
truncates the result at the first entry whose squared distance is not
below `radius * radius`. -/
def KDTreeFlann.SearchHybrid (t : KDTreeFlann α) (query : Pt α)
    (radius : α) (max_nn : Int) : Option (List (Nat × α)) :=
  if t.data_ = [] ∨ t.dataset_size_ = 0 ∨ query.length ≠ t.dimension_ ∨
      max_nn < 0 then none
  else
    some ((knnSearchPairs t query max_nn.toNat).takeWhile fun p =>
      decide (p.2 < radius * radius))

/-- One step of `SearchNNChain`'s deduplication: an index already in
`validIndices` (component 1) is dropped, a new index is appended both to
`validIndices` and to `next_indices_vec` (component 2). -/
def dedupAccum (s : List Nat × List Nat) (ind : Nat) : List Nat × List Nat :=
  if ind ∈ s.1 then s else (s.1 ++ [ind], s.2 ++ [ind])

/-- The hop loop of `KDTreeFlann::SearchNNChain` (lines 263-302).
`fuel` counts remaining hops (`chainLength - i`), `i` is the hop index;
`valid` and `next` model `validIndices` and `next_indices_vec`.  At hop
0 the frontier is the query point itself (its first three coordinates);
later hops gather `data_[ind*3 .. ind*3+2]` for every index of the
previous hop, and break when the previous hop found nothing new. -/
def chainLoop (t : KDTreeFlann α) (r2 : α) (q3 : Pt α) :
    Nat → Nat → List Nat → List Nat → List Nat
  | 0, _, valid, _ => valid
  | fuel + 1, i, valid, next =>
    if 1 ≤ i ∧ next = [] then valid
    else
      let frontier := if i = 0 then [q3] else next.map t.chainPoint
      let found :=
        (frontier.map fun p => (radiusSearchPairs t p r2).map Prod.fst).flatten
      let s := found.foldl dedupAccum (valid, [])
      chainLoop t r2 q3 fuel (i + 1) s.1 s.2

/-- The set (as an ordered, duplicate-free list) of indices visited by
`SearchNNChain`'s hop expansion.  `validIndices` is value-initialized in
the source as a one-element vector holding 0, so index 0 starts out
marked as visited; `next_indices_vec` likewise starts as `[0]` (it is
cleared before first use). -/
def chainVisited (t : KDTreeFlann α) (query : Pt α) (radiusLocal : α)
    (chainLength : Int) : List Nat :=
  chainLoop t (radiusLocal * radiusLocal) (query.take 3)
    chainLength.toNat 0 [0] [0]

/-- The single bounding radius search of `SearchNNChain` (lines
255-258): squared radius `radiusLocal^2 * chainLength^2` around the
query. -/
def bigRadiusPairs (t : KDTreeFlann α) (query : Pt α) (radiusLocal : α)
    (chainLength : Int) : List (Nat × α) :=
  radiusSearchPairs t query
    (radiusLocal * radiusLocal * (chainLength : α) * (chainLength : α))

/-- Model of `KDTreeFlann::SearchNNChain` (lines 236-321): after the
same guard as `SearchRadius`, runs the hop expansion, then keeps every
visited index found in the bounding radius result, paired with its
squared distance to the query.  The result vectors are value-initialized
as one-element zero vectors, so the pair `(0, 0)` is always the first
element of the output. -/
def KDTreeFlann.SearchNNChain (t : KDTreeFlann α) (query : Pt α)
    (radiusLocal : α) (chainLength : Int) : Option (List (Nat × α)) :=
  if t.data_ = [] ∨ t.dataset_size_ = 0 ∨ query.length ≠ t.dimension_ then
    none
  else
    some ((0, 0) ::
      (chainVisited t query radiusLocal chainLength).filterMap fun ind =>
        (bigRadiusPairs t query radiusLocal chainLength).find? fun p =>
          p.1 == ind)

/-- Per-scale convergence criteria, as in
`open3d::t::pipelines::registration::ICPConvergenceCriteria`. -/
structure ICPConvergenceCriteria (α : Type) where
  relative_fitness_ : α
  relative_rmse_ : α
  max_iteration_ : Nat

/-- How one scale's inner ICP loop exited: by observing the cancellation
signal (`!main_vis_`), by the convergence test, or by exhausting
`max_iteration_`.  The payload is the number of loop iterations that
were started. -/
inductive LoopExit where
  | cancelled (iters : Nat)
  | converged (iters : Nat)
  | maxedOut (iters : Nat)
deriving DecidableEq, Repr

/-- Number of iterations started before the loop exited. -/
def LoopExit.iters : LoopExit → Nat
  | .cancelled k => k
  | .converged k => k
  | .maxedOut k => k

/-- The inner loop of `MultiScaleICPDemo` (DemoTMultiScaleICP.cpp lines
194-250) for one scale.  `f j` / `r j` are the fitness and inlier RMSE
of the registration result available at the start of iteration `j`
(`f 0` comes from the pre-loop call at lines 190-192; iteration `j`
recomputes the result, yielding `f (j+1)`).  Within iteration `j` the
code first applies the estimated transform, then checks the
cancellation signal (line 224, modelled by `cancel` applied to the
global iteration counter `t0 + j`), then recomputes the result and
applies the convergence test `j != 0 && |Δfitness| < rf && |Δrmse| < rr`
(lines 243-249). -/
def runScaleLoopAux (rf rr : α) (f r : Nat → α) (cancel : Nat → Bool)
    (t0 : Nat) : Nat → Nat → LoopExit
  | 0, j => .maxedOut j
  | fuel + 1, j =>
    if cancel (t0 + j) then .cancelled (j + 1)
    else if j ≠ 0 ∧ |f j - f (j + 1)| < rf ∧ |r j - r (j + 1)| < rr then
      .converged (j + 1)
    else runScaleLoopAux rf rr f r cancel t0 fuel (j + 1)

/-- Run one scale's inner loop for at most `max_iteration` iterations,
starting at global iteration counter `t0`. -/
def runScaleLoop (max_iteration : Nat) (rf rr : α) (f r : Nat → α)
    (cancel : Nat → Bool) (t0 : Nat) : LoopExit :=
  runScaleLoopAux rf rr f r cancel t0 max_iteration 0

/-- Everything one scale of the outer loop (lines 184-251) needs: its
criteria and the fitness/RMSE sequences its correspondence searches
produce. -/
structure ScaleSpec (α : Type) where
  maxIter : Nat
  rf : α
  rr : α
  fit : Nat → α
  rmse : Nat → α

/-- The outer loop of `MultiScaleICPDemo` over the scales: each scale
runs its inner loop to completion; the outer loop itself never checks
the cancellation signal, it simply moves on to the next (finer) scale.
The global iteration counter is threaded through so that `cancel` can
model a signal that arrives at some point in time. -/
def runScales (cancel : Nat → Bool) : List (ScaleSpec α) → Nat → List LoopExit
  | [], _ => []
  | s :: rest, t0 =>
    runScaleLoop s.maxIter s.rf s.rr s.fit s.rmse cancel t0 ::
      runScales cancel rest
        (t0 + (runScaleLoop s.maxIter s.rf s.rr s.fit s.rmse cancel t0).iters)

/-- The length-validation tail of `ReadConfigFile` (lines 342-357): if
the five per-scale arrays do not all have the length of `voxel_sizes_`,
`utility::LogError` aborts (modelled as `Except.error` with the
source's message); otherwise the `ICPConvergenceCriteria` list is built
index by index. -/
def readConfigValidate (voxel_sizes search_radius relative_fitness
    relative_rmse : List α) (max_iterations : List Nat) :
    Except String (List (ICPConvergenceCriteria α)) :=
  if search_radius.length ≠ voxel_sizes.length ∨
      max_iterations.length ≠ voxel_sizes.length ∨
      relative_fitness.length ≠ voxel_sizes.length ∨
      relative_rmse.length ≠ voxel_sizes.length then
    Except.error
      " Length of vector: voxel_sizes, search_sizes, max_iterations, relative_fitness, relative_rmse must be same."
  else
    Except.ok ((List.range voxel_sizes.length).map fun i =>
      { relative_fitness_ := relative_fitness.getD i 0
        relative_rmse_ := relative_rmse.getD i 0
        max_iteration_ := max_iterations.getD i 0 })

/-- Composition of the constructor order of `MultipleWindowsApp`:
`ReadConfigFile` runs (and on a length mismatch aborts) before any
search or registration iteration; on success the validated criteria
drive the multi-scale loop (`F i` / `R i` are the fitness/RMSE
sequences of scale `i`). -/
def configuredRun (voxel_sizes search_radius relative_fitness
    relative_rmse : List α) (max_iterations : List Nat)
    (F R : Nat → Nat → α) (cancel : Nat → Bool) :
    Except String (List LoopExit) :=
  match readConfigValidate voxel_sizes search_radius relative_fitness
      relative_rmse max_iterations with
  | .error e => .error e
  | .ok crits =>
    .ok (runScales cancel
      (crits.enum.map fun ic =>
        ⟨ic.2.max_iteration_, ic.2.relative_fitness_, ic.2.relative_rmse_,
          F ic.1, R ic.1⟩) 0)

/-- The descending tail of the pyramid construction (lines 175-180):
given pyramid level `k+1` at the head of the accumulator, level `k` is
`VoxelDownSample(level (k+1), voxel_sizes_[k])` for every `k` from
`n-2` down to 0 — unconditionally, with no sentinel check.  `vds`
abstracts `PointCloud::VoxelDownSample`, `β` the point-cloud type. -/
def downChain {β : Type} (vds : β → α → β) : List α → β → List β
  | [], top => [top]
  | v :: rest, top =>
    vds ((downChain vds rest top).headD top) v :: downChain vds rest top

/-- The pyramid construction of `MultiScaleICPDemo` (lines 164-180):
the finest level `n-1` is the full-resolution cloud when
`voxel_sizes_[n-1] == -1` and otherwise a downsample of it; every other
level is always a downsample of the next finer level. -/
def buildPyramid {β : Type} (vds : β → α → β) (full : β)
    (voxel_sizes : List α) : List β :=
  match voxel_sizes.getLast? with
  | none => []
  | some vlast =>
    downChain vds voxel_sizes.dropLast
      (if vlast = -1 then full else vds full vlast)

variable {F : Type} [LinearOrderedField F]

/-- Division of doubles with the zero-divisor case made explicit:
`fdiv a b` is `none` exactly when the C++ division `a / b` has divisor
zero (producing NaN or infinity), and `some (a / b)` otherwise. -/
def fdiv (a b : F) : Option F := if b = 0 then none else some (a / b)

/-- The fields of `RegistrationResult` that
`GetRegistrationResultAndCorrespondences` fills: fitness, the radicand
of the inlier RMSE (`sqrt` is monotone, so the radicand carries the
claim-relevant content), and the correspondence triples
`(source index, target index, squared distance)`.  An `Option` field is
`none` when the C++ value is NaN from a zero divisor. -/
structure RegistrationResultM (F : Type) where
  fitness : Option F
  inlierRmseSq : Option F
  correspondences : List (Nat × Nat × F)

/-- Modelled from the spec: `NearestNeighborSearch::Hybrid1NNSearch`
(the tensor nearest-neighbor backend is not part of the sources; spec
section 4.2 defines it as a Hybrid search with `max_nn = 1` and
`radius = max_distance`, contributing no entry when no target point
lies within the threshold). -/
def hybrid1NN (target : List (Pt F)) (max_dist : F) (p : Pt F) :
    Option (Nat × F) :=
  match sortPairs ((List.range target.length).map fun j =>
      (j, sqDist p (target.getD j []))) with
  | [] => none
  | c :: _ => if c.2 < max_dist * max_dist then some c else none

/-- Correspondence gathering of
`GetRegistrationResultAndCorrespondences` (lines 454-458): one
`Hybrid1NNSearch` per source point; unmatched source points contribute
no triple. -/
def buildCorrespondences (source target : List (Pt F))
    (max_correspondence_distance : F) : List (Nat × Nat × F) :=
  (List.range source.length).filterMap fun i =>
    (hybrid1NN target max_correspondence_distance (source.getD i [])).map
      fun jd => (i, jd.1, jd.2)

/-- Model of `GetRegistrationResultAndCorrespondences`
(DemoTMultiScaleICP.cpp lines 419-473): for
`max_correspondence_distance <= 0` the default-constructed result
(fitness 0, RMSE 0, no correspondences) is returned at line 442;
otherwise the correspondences are gathered via `Hybrid1NNSearch` and
the code computes `fitness = C / |source|` and
`inlier_rmse = sqrt(squared_error / C)` (lines 466-469) with no guard
on `C = 0`. -/
def GetRegistrationResultAndCorrespondences (source target : List (Pt F))
    (max_correspondence_distance : F) : RegistrationResultM F :=
  if max_correspondence_distance ≤ 0 then ⟨some 0, some 0, []⟩
  else
    ⟨fdiv (((buildCorrespondences source target
          max_correspondence_distance).length : F)) ((source.length : F)),
      fdiv ((buildCorrespondences source target
          max_correspondence_distance).map fun c => c.2.2).sum
        (((buildCorrespondences source target
          max_correspondence_distance).length : F)),
      buildCorrespondences source target max_correspondence_distance⟩

/-- Specification of what one pass of `SearchNNChain`'s deduplication
appends: the indices of `inds` not yet in `valid`, first occurrences
only, in order.  Used to characterize `dedupAccum` folds. -/
def dedupNew (valid : List Nat) : List Nat → List Nat
  | [] => []
  | i :: is =>
    if i ∈ valid then dedupNew valid is
    else i :: dedupNew (valid ++ [i]) is

/-- Fitness sequence of the convergence-test scenario from the spec's
testable properties: iteration results 0.50, 0.701, 0.702. -/
def fScen : Nat → ℚ := fun j => [1/2, 701/1000, 702/1000].getD j (702/1000)

/-- Inlier-RMSE sequence of the same scenario: 0.10, 0.050, 0.0499. -/
def rScen : Nat → ℚ := fun j => [1/10, 1/20, 499/10000].getD j (499/10000)

/-! Basic facts about the backend model. -/

theorem sortPairs_sorted (l : List (Nat × α)) :
    List.Sorted DistLe (sortPairs l) :=
  List.sorted_insertionSort DistLe l

theorem sortPairs_perm (l : List (Nat × α)) : List.Perm (sortPairs l) l :=
  List.perm_insertionSort DistLe l

theorem mem_sortPairs {l : List (Nat × α)} {p : Nat × α} :
    p ∈ sortPairs l ↔ p ∈ l :=
  (sortPairs_perm l).mem_iff

theorem mem_allPairs {t : KDTreeFlann α} {q : Pt α} {p : Nat × α} :
    p ∈ allPairs t q ↔
      p.1 < t.dataset_size_ ∧ p.2 = sqDist q (t.point p.1) := by
  constructor
  · intro h
    rcases List.mem_map.mp h with ⟨j, hj, rfl⟩
    exact ⟨List.mem_range.mp hj, rfl⟩
  · rintro ⟨h1, h2⟩
    refine List.mem_map.mpr ⟨p.1, List.mem_range.mpr h1, ?_⟩
    exact Prod.ext rfl h2.symm

theorem allPairs_keys (t : KDTreeFlann α) (q : Pt α) :
    (allPairs t q).map Prod.fst = List.range t.dataset_size_ := by
  simp [allPairs, List.map_map, Function.comp_def]

theorem radius_keyNodup (t : KDTreeFlann α) (q : Pt α) (r2 : α) :
    ((radiusSearchPairs t q r2).map Prod.fst).Nodup := by
  have hperm :
      List.Perm (radiusSearchPairs t q r2)
        ((allPairs t q).filter fun p => decide (p.2 < r2)) :=
    sortPairs_perm _
  have hsub :
      List.Sublist
        (((allPairs t q).filter fun p => decide (p.2 < r2)).map Prod.fst)
        ((allPairs t q).map Prod.fst) :=
    (List.filter_sublist _).map _
  have hnd : (((allPairs t q).filter fun p => decide (p.2 < r2)).map
      Prod.fst).Nodup := by
    refine List.Nodup.sublist hsub ?_
    rw [allPairs_keys]
    exact List.nodup_range _
  exact ((hperm.map Prod.fst).nodup_iff).mpr hnd

theorem mem_radiusSearchPairs {t : KDTreeFlann α} {q : Pt α} {r2 : α}
    {p : Nat × α} :
    p ∈ radiusSearchPairs t q r2 ↔
      p.1 < t.dataset_size_ ∧ p.2 = sqDist q (t.point p.1) ∧ p.2 < r2 := by
  unfold radiusSearchPairs
  rw [mem_sortPairs, List.mem_filter]
  simp [mem_allPairs, and_assoc]

theorem find_key_of_mem {l : List (Nat × α)} (hl : (l.map Prod.fst).Nodup)
    {p : Nat × α} (hp : p ∈ l) :
    (l.find? fun x => x.1 == p.1) = some p := by
  induction l with
  | nil => cases hp
  | cons a l ih =>
    rcases List.mem_cons.mp hp with rfl | hp'
    · exact List.find?_cons_of_pos _ (by simp)
    · have ha : a.1 ∉ l.map Prod.fst := by
        rw [List.map_cons, List.nodup_cons] at hl
        exact hl.1
      have hkey : (a.1 == p.1) = false := by
        refine beq_eq_false_iff_ne.mpr fun he => ha ?_
        exact he ▸ List.mem_map_of_mem Prod.fst hp'
      rw [List.find?_cons_of_neg _ (by simp [hkey])]
      refine ih ?_ hp'
      rw [List.map_cons, List.nodup_cons] at hl
      exact hl.2

theorem find_key_toList {l : List (Nat × α)}
    (hl : (l.map Prod.fst).Nodup) (k : Nat) :
    (l.find? fun x => x.1 == k).toList = l.filter fun x => x.1 == k := by
  induction l with
  | nil => simp
  | cons a l ih =>
    have ha : a.1 ∉ l.map Prod.fst := by
      rw [List.map_cons, List.nodup_cons] at hl
      exact hl.1
    have htl : (l.map Prod.fst).Nodup := by
      rw [List.map_cons, List.nodup_cons] at hl
      exact hl.2
    by_cases h : a.1 = k
    · rw [List.find?_cons_of_pos _ (by simp [h]),
        List.filter_cons_of_pos (by simp [h])]
      have hnil : (l.filter fun x => x.1 == k) = [] := by
        refine List.filter_eq_nil_iff.mpr fun x hx => ?_
        simp only [beq_iff_eq]
        intro he
        exact ha (h ▸ he ▸ List.mem_map_of_mem Prod.fst hx)
      rw [hnil]
      rfl
    · rw [List.find?_cons_of_neg _ (by simp [h]),
        List.filter_cons_of_neg (by simp [h])]
      exact ih htl

theorem filterMap_ext_mem {β γ : Type} {l : List β} {f g : β → Option γ}
    (h : ∀ x ∈ l, f x = g x) : l.filterMap f = l.filterMap g := by
  induction l with
  | nil => rfl
  | cons a l ih =>
    rw [List.filterMap_cons, List.filterMap_cons, h a (List.mem_cons_self a l),
      ih fun x hx => h x (List.mem_cons_of_mem a hx)]

theorem filterMap_find_filter_keys {l : List (Nat × α)}
    (hl : (l.map Prod.fst).Nodup) (φ : Nat → Bool) :
    ((l.map Prod.fst).filter φ).filterMap
        (fun i => l.find? fun x => x.1 == i) =
      l.filter fun p => φ p.1 := by
  induction l with
  | nil => simp
  | cons a l ih =>
    have ha : a.1 ∉ l.map Prod.fst := by
      rw [List.map_cons, List.nodup_cons] at hl
      exact hl.1
    have htl : (l.map Prod.fst).Nodup := by
      rw [List.map_cons, List.nodup_cons] at hl
      exact hl.2
    have hcong : ∀ i ∈ (l.map Prod.fst).filter φ,
        ((a :: l).find? fun x => x.1 == i) = l.find? fun x => x.1 == i := by
      intro i hi
      have hmem : i ∈ l.map Prod.fst := (List.mem_filter.mp hi).1
      have hne : a.1 ≠ i := fun he => ha (he ▸ hmem)
      exact List.find?_cons_of_neg _ (by simp [hne])
    rw [List.map_cons]
    by_cases hφ : φ a.1
    · rw [List.filter_cons_of_pos (by simp [hφ]),
        List.filter_cons_of_pos (by simp [hφ]), List.filterMap_cons,
        List.find?_cons_of_pos _ (by simp), filterMap_ext_mem hcong, ih htl]
    · rw [List.filter_cons_of_neg (by simp [hφ]),
        List.filter_cons_of_neg (by simp [hφ]), filterMap_ext_mem hcong,
        ih htl]

theorem foldl_dedupAccum (inds valid next : List Nat) :
    inds.foldl dedupAccum (valid, next) =
      (valid ++ dedupNew valid inds, next ++ dedupNew valid inds) := by
  induction inds generalizing valid next with
  | nil => simp [dedupNew]
  | cons i is ih =>
    rw [List.foldl_cons]
    by_cases h : i ∈ valid
    · rw [show dedupAccum (valid, next) i = (valid, next) by
        simp [dedupAccum, h]]
      rw [ih, dedupNew, if_pos h]
    · rw [show dedupAccum (valid, next) i = (valid ++ [i], next ++ [i]) by
        simp [dedupAccum, h]]
      rw [ih, dedupNew, if_neg h]
      simp

theorem mem_dedupNew {x : Nat} {inds : List Nat} :
    ∀ {valid : List Nat}, x ∈ dedupNew valid inds ↔ x ∈ inds ∧ x ∉ valid := by
  induction inds with
  | nil => simp [dedupNew]
  | cons i is ih =>
    intro valid
    by_cases h : i ∈ valid
    · rw [dedupNew, if_pos h, ih]
      constructor
      · rintro ⟨h1, h2⟩
        exact ⟨List.mem_cons_of_mem i h1, h2⟩
      · rintro ⟨h1, h2⟩
        rcases List.mem_cons.mp h1 with rfl | h1'
        · exact absurd h h2
        · exact ⟨h1', h2⟩
    · rw [dedupNew, if_neg h]
      constructor
      · intro hx
        rcases List.mem_cons.mp hx with rfl | hx'
        · exact ⟨List.mem_cons_self _ _, h⟩
        · rcases ih.mp hx' with ⟨h1, h2⟩
          have : x ∉ valid := fun hv => h2 (List.mem_append_left _ hv)
          exact ⟨List.mem_cons_of_mem i h1, this⟩
      · rintro ⟨h1, h2⟩
        rcases List.mem_cons.mp h1 with rfl | h1'
        · exact List.mem_cons_self _ _
        · by_cases hxi : x = i
          · exact hxi ▸ List.mem_cons_self _ _
          · refine List.mem_cons_of_mem i (ih.mpr ⟨h1', fun hv => ?_⟩)
            rcases List.mem_append.mp hv with hv' | hv'
            · exact h2 hv'
            · exact hxi (List.mem_singleton.mp hv')

theorem dedupNew_eq_filter {inds : List Nat} (h : inds.Nodup) :
    ∀ valid : List Nat,
      dedupNew valid inds = inds.filter fun i => decide (i ∉ valid) := by
  induction inds with
  | nil => intro valid; rfl
  | cons i is ih =>
    intro valid
    have hnd := List.nodup_cons.mp h
    by_cases hv : i ∈ valid
    · rw [dedupNew, if_pos hv, List.filter_cons_of_neg (by simp [hv]),
        ih hnd.2 valid]
    · rw [dedupNew, if_neg hv, List.filter_cons_of_pos (by simp [hv]),
        ih hnd.2 (valid ++ [i])]
      congr 1
      refine List.filter_congr fun x hx => ?_
      have hxi : x ≠ i := fun he => hnd.1 (he ▸ hx)
      simp [List.mem_append, hxi]

theorem zero_mem_chainLoop (t : KDTreeFlann α) (r2 : α) (q3 : Pt α) :
    ∀ (fuel i : Nat) (valid next : List Nat), 0 ∈ valid →
      0 ∈ chainLoop t r2 q3 fuel i valid next := by
  intro fuel
  induction fuel with
  | zero => intro i valid next h; exact h
  | succ fuel ih =>
    intro i valid next h
    rw [chainLoop]
    by_cases hc : 1 ≤ i ∧ next = []
    · rw [if_pos hc]; exact h
    · rw [if_neg hc]
      apply ih
      rw [foldl_dedupAccum]
      exact List.mem_append_left _ h

/-- Claim C1: for every built index over a non-empty point set, every
query of matching dimension, every radius r > 0 and every max_nn >= 0,
Hybrid search returns exactly the truncation of the k-NN search result
with k = max_nn at the first position whose squared distance is >= r^2
(same indices and squared distances, ordered by non-decreasing squared
distance, hence at most max_nn results). -/
theorem hybrid_truncates_knn (t : KDTreeFlann α) (query : Pt α)
    (radius : α) (max_nn : Int) (h1 : t.data_ ≠ [])
    (h2 : t.dataset_size_ ≠ 0) (h3 : query.length = t.dimension_)
    (hr : 0 < radius) (hm : 0 ≤ max_nn) :
    ∃ res, t.SearchKNN query max_nn = some res ∧
      t.SearchHybrid query radius max_nn =
        some (res.takeWhile fun p => decide (p.2 < radius * radius)) ∧
      List.Sorted (fun a b : Nat × α => a.2 ≤ b.2) res ∧
      res.length ≤ max_nn.toNat := by
  have hg : ¬ (t.data_ = [] ∨ t.dataset_size_ = 0 ∨
      query.length ≠ t.dimension_ ∨ max_nn < 0) := by
    push_neg
    exact ⟨h1, h2, h3, hm⟩
  refine ⟨knnSearchPairs t query max_nn.toNat, ?_, ?_, ?_, ?_⟩
  · rw [KDTreeFlann.SearchKNN, if_neg hg]
  · rw [KDTreeFlann.SearchHybrid, if_neg hg]
  · refine List.Pairwise.imp ?_
      (List.Pairwise.sublist (List.take_sublist _ _)
        (sortPairs_sorted (allPairs t query)))
    intro a b h
    rcases h with h | h
    · exact le_of_lt h
    · exact le_of_eq h.1
  · rw [knnSearchPairs, List.length_take]
    exact min_le_left _ _

/-- Witness for C1 at a one-dimensional two-point index: the k-NN
result is [(0,0),(1,100)] and the hybrid result with radius 2 keeps
only the squared distances below 4. -/
theorem hybrid_truncates_knn_witness :
    ∃ res, (⟨1, 2, [0, 10]⟩ : KDTreeFlann ℤ).SearchKNN [0] 2 = some res ∧
      (⟨1, 2, [0, 10]⟩ : KDTreeFlann ℤ).SearchHybrid [0] 2 2 =
        some (res.takeWhile fun p => decide (p.2 < 2 * 2)) ∧
      List.Sorted (fun a b : Nat × ℤ => a.2 ≤ b.2) res ∧
      res.length ≤ (2 : Int).toNat :=
  hybrid_truncates_knn ⟨1, 2, [0, 10]⟩ [0] 2 2 (by decide) (by decide)
    (by decide) (by decide) (by decide)

/-- Claim C7: every search operation called before a successful Build
(on the default-constructed index), or on a zero-length dataset (which
`SetRawData` refuses to build), or with a query whose dimensionality
mismatches the index, or with negative `knn` (k-NN) / `max_nn` (Hybrid),
returns the explicit error signal -1 (modelled `none`, which also
models that the caller's output vectors stay untouched; the search
functions take the index by value and never modify it). -/
theorem search_error_signals :
    (∀ (dimension : Nat) (data : List α),
      SetRawData dimension 0 data = none) ∧
    (∀ (dataset_size : Nat) (data : List α),
      SetRawData 0 dataset_size data = none) ∧
    (∀ (q : Pt α) (knn : Int),
      (KDTreeFlann.unbuilt α).SearchKNN q knn = none) ∧
    (∀ (q : Pt α) (radius : α),
      (KDTreeFlann.unbuilt α).SearchRadius q radius = none) ∧
    (∀ (q : Pt α) (radius : α) (max_nn : Int),
      (KDTreeFlann.unbuilt α).SearchHybrid q radius max_nn = none) ∧
    (∀ (q : Pt α) (radius : α) (n : Int),
      (KDTreeFlann.unbuilt α).SearchNNChain q radius n = none) ∧
    (∀ (t : KDTreeFlann α) (q : Pt α) (knn : Int),
      q.length ≠ t.dimension_ → t.SearchKNN q knn = none) ∧
    (∀ (t : KDTreeFlann α) (q : Pt α) (radius : α),
      q.length ≠ t.dimension_ → t.SearchRadius q radius = none) ∧
    (∀ (t : KDTreeFlann α) (q : Pt α) (radius : α) (max_nn : Int),
      q.length ≠ t.dimension_ → t.SearchHybrid q radius max_nn = none) ∧
    (∀ (t : KDTreeFlann α) (q : Pt α) (radius : α) (n : Int),
      q.length ≠ t.dimension_ → t.SearchNNChain q radius n = none) ∧
    (∀ (t : KDTreeFlann α) (q : Pt α) (knn : Int),
      knn < 0 → t.SearchKNN q knn = none) ∧
    (∀ (t : KDTreeFlann α) (q : Pt α) (radius : α) (max_nn : Int),
      max_nn < 0 → t.SearchHybrid q radius max_nn = none) := by
  refine ⟨?_, ?_, ?_, ?_, ?_, ?_, ?_, ?_, ?_, ?_, ?_, ?_⟩
  · intro dimension data
    simp [SetRawData]
  · intro dataset_size data
    simp [SetRawData]
  · intro q knn
    simp [KDTreeFlann.SearchKNN, KDTreeFlann.unbuilt]
  · intro q radius
    simp [KDTreeFlann.SearchRadius, KDTreeFlann.unbuilt]
  · intro q radius max_nn
    simp [KDTreeFlann.SearchHybrid, KDTreeFlann.unbuilt]
  · intro q radius n
    simp [KDTreeFlann.SearchNNChain, KDTreeFlann.unbuilt]
  · intro t q knn h
    simp [KDTreeFlann.SearchKNN, h]
  · intro t q radius h
    simp [KDTreeFlann.SearchRadius, h]
  · intro t q radius max_nn h
    simp [KDTreeFlann.SearchHybrid, h]
  · intro t q radius n h
    simp [KDTreeFlann.SearchNNChain, h]
  · intro t q knn h
    simp [KDTreeFlann.SearchKNN, h]
  · intro t q radius max_nn h
    simp [KDTreeFlann.SearchHybrid, h]

/-- Witness for C7: dimension-mismatch and negative-count calls on a
concrete built three-dimensional one-point index all signal -1. -/
theorem search_error_signals_witness :
    (⟨3, 1, ([0, 0, 0] : List ℤ)⟩ : KDTreeFlann ℤ).SearchKNN [0, 0] 1 =
        none ∧
    (⟨3, 1, ([0, 0, 0] : List ℤ)⟩ : KDTreeFlann ℤ).SearchRadius [0, 0] 1 =
        none ∧
    (⟨3, 1, ([0, 0, 0] : List ℤ)⟩ : KDTreeFlann ℤ).SearchHybrid [0, 0] 1 1 =
        none ∧
    (⟨3, 1, ([0, 0, 0] : List ℤ)⟩ : KDTreeFlann ℤ).SearchNNChain [0, 0] 1 1 =
        none ∧
    (⟨3, 1, ([0, 0, 0] : List ℤ)⟩ : KDTreeFlann ℤ).SearchKNN [0, 0, 0] (-1) =
        none ∧
    (⟨3, 1, ([0, 0, 0] : List ℤ)⟩ : KDTreeFlann ℤ).SearchHybrid [0, 0, 0]
        1 (-1) = none :=
  ⟨search_error_signals.2.2.2.2.2.2.1 _ _ _ (by decide),
    search_error_signals.2.2.2.2.2.2.2.1 _ _ _ (by decide),
    search_error_signals.2.2.2.2.2.2.2.2.1 _ _ _ _ (by decide),
    search_error_signals.2.2.2.2.2.2.2.2.2.1 _ _ _ _ (by decide),
    search_error_signals.2.2.2.2.2.2.2.2.2.2.1 _ _ _ (by decide),
    search_error_signals.2.2.2.2.2.2.2.2.2.2.2 _ _ _ _ (by decide)⟩

theorem runScaleLoopAux_converged_iff (rf rr : α) (f r : Nat → α)
    (t0 : Nat) :
    ∀ (fuel j0 : Nat),
      (∃ k, runScaleLoopAux rf rr f r (fun _ => false) t0 fuel j0 =
        .converged k) ↔
      ∃ j, j0 ≤ j ∧ j < j0 + fuel ∧ j ≠ 0 ∧
        |f j - f (j + 1)| < rf ∧ |r j - r (j + 1)| < rr := by
  intro fuel
  induction fuel with
  | zero =>
    intro j0
    constructor
    · rintro ⟨k, hk⟩
      rw [runScaleLoopAux] at hk
      cases hk
    · rintro ⟨j, h1, h2, -⟩
      omega
  | succ fuel ih =>
    intro j0
    rw [runScaleLoopAux]
    simp only [Bool.false_eq_true, if_false]
    by_cases hc : j0 ≠ 0 ∧ |f j0 - f (j0 + 1)| < rf ∧ |r j0 - r (j0 + 1)| < rr
    · rw [if_pos hc]
      constructor
      · intro _
        exact ⟨j0, le_refl _, by omega, hc.1, hc.2.1, hc.2.2⟩
      · intro _
        exact ⟨j0 + 1, rfl⟩
    · rw [if_neg hc]
      rw [ih (j0 + 1)]
      constructor
      · rintro ⟨j, h1, h2, h3, h4, h5⟩
        exact ⟨j, by omega, by omega, h3, h4, h5⟩
      · rintro ⟨j, h1, h2, h3, h4, h5⟩
        refine ⟨j, ?_, by omega, h3, h4, h5⟩
        rcases Nat.eq_or_lt_of_le h1 with rfl | h1'
        · exact absurd ⟨h3, h4, h5⟩ hc
        · omega

/-- Claim C4: with the cancellation signal never firing, the per-scale
ICP inner loop exits through the convergence break (before exhausting
max_iterations) exactly when at some iteration j != 0 (with j + 1 <=
max_iterations iterations started) both |prev_fitness - fitness| <
relative_fitness AND |prev_rmse - rmse| < relative_rmse hold
simultaneously; the test is never applied at j = 0.  On the scenario
fitness sequence [0.50, 0.701, 0.702] and rmse sequence [0.10, 0.050,
0.0499] with thresholds (0.01, 0.01) the loop continues past its first
iteration and stops at the second (two iterations started, exit
`converged 2`). -/
theorem icp_inner_loop_convergence :
    (∀ (max_iteration : Nat) (rf rr : α) (f r : Nat → α),
      (∃ k, runScaleLoop max_iteration rf rr f r (fun _ => false) 0 =
        .converged k) ↔
      ∃ j, 1 ≤ j ∧ j < max_iteration ∧
        |f j - f (j + 1)| < rf ∧ |r j - r (j + 1)| < rr) ∧
    runScaleLoop 30 (1/100 : ℚ) (1/100) fScen rScen (fun _ => false) 0 =
      .converged 2 := by
  constructor
  · intro max_iteration rf rr f r
    rw [runScaleLoop, runScaleLoopAux_converged_iff]
    constructor
    · rintro ⟨j, -, h2, h3, h4, h5⟩
      exact ⟨j, by omega, by omega, h4, h5⟩
    · rintro ⟨j, h1, h2, h4, h5⟩
      exact ⟨j, by omega, by omega, by omega, h4, h5⟩
  · norm_num [runScaleLoop, runScaleLoopAux, fScen, rScen, abs_lt]

theorem runScales_all_cancelled (specs : List (ScaleSpec α)) :
    ∀ t0 : Nat, runScales (fun _ => true) specs t0 =
      specs.map fun s =>
        if s.maxIter = 0 then LoopExit.maxedOut 0 else LoopExit.cancelled 1 := by
  induction specs with
  | nil => intro t0; rfl
  | cons s rest ih =>
    intro t0
    have he : runScaleLoop s.maxIter s.rf s.rr s.fit s.rmse
        (fun _ => true) t0 =
        if s.maxIter = 0 then LoopExit.maxedOut 0 else LoopExit.cancelled 1 := by
      cases hm : s.maxIter with
      | zero => rw [runScaleLoop, runScaleLoopAux, if_pos rfl]
      | succ n =>
        rw [runScaleLoop, runScaleLoopAux]
        simp
    rw [runScales, List.map_cons, he, ih]

/-- Counterexample to claim C9 as stated: the cancellation signal is
active from the very first iteration boundary, so it is observed during
scale 0's inner loop (scale 0 exits `cancelled 1`), yet the remaining
scale still executes one iteration (its exit is `cancelled 1`, i.e. one
started iteration, not zero): the outer scale loop has no cancellation
check of its own. -/
theorem cancellation_remaining_scale_runs_cex :
    runScales (fun _ => true)
      ([⟨5, 0, 0, fun _ => 0, fun _ => 0⟩,
        ⟨5, 0, 0, fun _ => 0, fun _ => 0⟩] : List (ScaleSpec ℤ)) 0 =
      [LoopExit.cancelled 1, LoopExit.cancelled 1] ∧
    (runScales (fun _ => true)
      ([⟨5, 0, 0, fun _ => 0, fun _ => 0⟩,
        ⟨5, 0, 0, fun _ => 0, fun _ => 0⟩] : List (ScaleSpec ℤ)) 0).map
      LoopExit.iters = [1, 1] := by
  constructor <;> rfl

/-- Claim C9 (amended): when the cancellation signal is observed at an
iteration boundary, the current scale's inner loop terminates (no
further iterations of that scale), but the remaining scales are not
skipped: each remaining scale with max_iterations >= 1 still starts
exactly one iteration (transform estimation and application) before it
observes the signal and breaks — exit `cancelled 1` for every scale. -/
theorem cancellation_stops_current_scale_only (specs : List (ScaleSpec α))
    (t0 : Nat) (h : ∀ s ∈ specs, 1 ≤ s.maxIter) :
    runScales (fun _ => true) specs t0 =
      specs.map fun _ => LoopExit.cancelled 1 := by
  rw [runScales_all_cancelled specs t0]
  refine List.map_congr_left fun s hs => ?_
  have := h s hs
  rw [if_neg (by omega)]

/-- Witness for C9's amended theorem on a three-scale configuration. -/
theorem cancellation_stops_current_scale_only_witness :
    runScales (fun _ => true)
      ([⟨3, 0, 0, fun _ => 0, fun _ => 0⟩,
        ⟨4, 0, 0, fun _ => 0, fun _ => 0⟩,
        ⟨2, 0, 0, fun _ => 0, fun _ => 0⟩] : List (ScaleSpec ℤ)) 0 =
      [LoopExit.cancelled 1, LoopExit.cancelled 1, LoopExit.cancelled 1] := by
  have h := cancellation_stops_current_scale_only
    ([⟨3, 0, 0, fun _ => 0, fun _ => 0⟩,
      ⟨4, 0, 0, fun _ => 0, fun _ => 0⟩,
      ⟨2, 0, 0, fun _ => 0, fun _ => 0⟩] : List (ScaleSpec ℤ)) 0
    (by
      intro s hs
      rcases List.mem_cons.mp hs with rfl | hs'
      · exact by norm_num
      rcases List.mem_cons.mp hs' with rfl | hs''
      · exact by norm_num
      rcases List.mem_cons.mp hs'' with rfl | hs'''
      · exact by norm_num
      · cases hs''')
  simpa using h

/-- Claim C6: if the per-scale arrays voxel_sizes, search_radii,
max_iterations, relative_fitness and relative_rmse do not all have the
same length, the run reports the fatal configuration error before any
search or registration iteration executes (the multi-scale loop is
never reached); with equal lengths the criteria list is built with one
entry per scale — mismatched lengths are never silently truncated. -/
theorem config_length_mismatch_fatal :
    (∀ (voxel_sizes search_radius relative_fitness relative_rmse : List α)
        (max_iterations : List Nat) (F R : Nat → Nat → α)
        (cancel : Nat → Bool),
      ¬ (search_radius.length = voxel_sizes.length ∧
          max_iterations.length = voxel_sizes.length ∧
          relative_fitness.length = voxel_sizes.length ∧
          relative_rmse.length = voxel_sizes.length) →
      configuredRun voxel_sizes search_radius relative_fitness relative_rmse
          max_iterations F R cancel =
        Except.error
          " Length of vector: voxel_sizes, search_sizes, max_iterations, relative_fitness, relative_rmse must be same.") ∧
    (∀ (voxel_sizes search_radius relative_fitness relative_rmse : List α)
        (max_iterations : List Nat),
      search_radius.length = voxel_sizes.length →
      max_iterations.length = voxel_sizes.length →
      relative_fitness.length = voxel_sizes.length →
      relative_rmse.length = voxel_sizes.length →
      ∃ crits, readConfigValidate voxel_sizes search_radius relative_fitness
          relative_rmse max_iterations = Except.ok crits ∧
        crits.length = voxel_sizes.length) := by
  constructor
  · intro vs sr rf rr mi F R cancel h
    have hd : sr.length ≠ vs.length ∨ mi.length ≠ vs.length ∨
        rf.length ≠ vs.length ∨ rr.length ≠ vs.length := by tauto
    have herr : readConfigValidate vs sr rf rr mi =
        Except.error
          " Length of vector: voxel_sizes, search_sizes, max_iterations, relative_fitness, relative_rmse must be same." := by
      rw [readConfigValidate, if_pos hd]
    rw [configuredRun, herr]
  · intro vs sr rf rr mi h1 h2 h3 h4
    refine ⟨(List.range vs.length).map fun i =>
      ⟨rf.getD i 0, rr.getD i 0, mi.getD i 0⟩, ?_, by simp⟩
    rw [readConfigValidate, if_neg (by push_neg; exact ⟨h1, h2, h3, h4⟩)]

/-- Witness for C6: a mismatched configuration (two voxel sizes, one
search radius) aborts with the error, and a matched one-scale
configuration yields exactly one criteria entry. -/
theorem config_length_mismatch_fatal_witness :
    configuredRun ([1, 2] : List ℤ) [1] [0] [0] [5] (fun _ _ => 0)
        (fun _ _ => 0) (fun _ => false) =
      Except.error
        " Length of vector: voxel_sizes, search_sizes, max_iterations, relative_fitness, relative_rmse must be same." ∧
    ∃ crits, readConfigValidate ([1] : List ℤ) [2] [0] [0] [5] =
        Except.ok crits ∧ crits.length = ([1] : List ℤ).length :=
  ⟨config_length_mismatch_fatal.1 [1, 2] [1] [0] [0] [5] (fun _ _ => 0)
      (fun _ _ => 0) (fun _ => false) (by simp),
    config_length_mismatch_fatal.2 [1] [2] [0] [0] [5] (by simp) (by simp)
      (by simp) (by simp)⟩

theorem downChain_ne_nil {β : Type} (vds : β → α → β) (vs : List α)
    (top : β) : downChain vds vs top ≠ [] := by
  cases vs with
  | nil => simp [downChain]
  | cons v rest => simp [downChain]

theorem downChain_length {β : Type} (vds : β → α → β) :
    ∀ (vs : List α) (top : β),
      (downChain vds vs top).length = vs.length + 1 := by
  intro vs
  induction vs with
  | nil => intro top; rfl
  | cons v rest ih =>
    intro top
    rw [downChain, List.length_cons, ih top, List.length_cons]

theorem downChain_getLast {β : Type} (vds : β → α → β) :
    ∀ (vs : List α) (top : β),
      (downChain vds vs top).getLast? = some top := by
  intro vs
  induction vs with
  | nil => intro top; rfl
  | cons v rest ih =>
    intro top
    cases hdc : downChain vds rest top with
    | nil => exact absurd hdc (downChain_ne_nil vds rest top)
    | cons a l =>
      rw [downChain, hdc, List.getLast?_cons_cons, ← hdc, ih top]

theorem downChain_step {β : Type} (vds : β → α → β) :
    ∀ (vs : List α) (top : β) (k : Nat), k < vs.length →
      ∃ u, (downChain vds vs top)[k + 1]? = some u ∧
        (downChain vds vs top)[k]? = some (vds u (vs.getD k 0)) := by
  intro vs
  induction vs with
  | nil =>
    intro top k h
    exact absurd h (Nat.not_lt_zero k)
  | cons v rest ih =>
    intro top k hk
    cases k with
    | zero =>
      cases hdc : downChain vds rest top with
      | nil => exact absurd hdc (downChain_ne_nil vds rest top)
      | cons a l =>
        refine ⟨a, ?_, ?_⟩
        · rw [downChain, hdc]
          simp
        · rw [downChain, hdc]
          simp
    | succ k' =>
      have hk' : k' < rest.length := by simpa using hk
      obtain ⟨u, hu1, hu2⟩ := ih top k' hk'
      refine ⟨u, ?_, ?_⟩
      · rw [downChain]
        simpa using hu1
      · rw [downChain]
        simpa using hu2

theorem getD_dropLast {γ : Type} (l : List γ) (k : Nat) (d : γ)
    (h : k + 1 < l.length) : l.dropLast.getD k d = l.getD k d := by
  rw [List.getD_eq_getElem?_getD, List.getD_eq_getElem?_getD,
    List.dropLast_eq_take]
  congr 1
  rw [List.getElem?_take]
  rw [if_pos (by omega)]

/-- Counterexample to claim C8 as stated: with scales flagged [-1, 2]
(scale 0 carries the sentinel -1) and an abstract downsampler that
increments a counter — so a downsampled cloud never equals the
full-resolution cloud 0 — the level built for scale 0 is a downsample
of level 1 (value 2), not the full-resolution cloud: the non-final
levels are downsampled unconditionally, sentinel or not. -/
theorem pyramid_sentinel_ignored_cex :
    buildPyramid (fun (c : Nat) (_ : ℤ) => c + 1) 0 ([-1, 2] : List ℤ) =
      [2, 1] ∧
    ¬ (buildPyramid (fun (c : Nat) (_ : ℤ) => c + 1) 0
        ([-1, 2] : List ℤ))[0]? = some 0 := by
  constructor <;> decide

/-- Claim C8 (amended): pyramid construction proceeds from the finest
requested scale (last position) backward to the coarsest (position 0),
but only the finest scale honors the sentinel voxel size -1: if
voxel_sizes[n-1] = -1 the finest level is the full-resolution cloud
unmodified, otherwise it is a downsample of it; every other level k is
always a downsample of level k+1 with voxel_sizes[k], even when flagged
-1. -/
theorem buildPyramid_structure {β : Type} (vds : β → α → β) (full : β)
    (voxel_sizes : List α) (h : voxel_sizes ≠ []) :
    (buildPyramid vds full voxel_sizes).length = voxel_sizes.length ∧
    (∃ vlast, voxel_sizes.getLast? = some vlast ∧
      (buildPyramid vds full voxel_sizes).getLast? =
        some (if vlast = -1 then full else vds full vlast)) ∧
    (∀ k, k + 1 < voxel_sizes.length →
      ∃ u, (buildPyramid vds full voxel_sizes)[k + 1]? = some u ∧
        (buildPyramid vds full voxel_sizes)[k]? =
          some (vds u (voxel_sizes.getD k 0))) := by
  obtain ⟨vlast, hlast⟩ : ∃ v, voxel_sizes.getLast? = some v := by
    cases hv : voxel_sizes.getLast? with
    | none => exact absurd (List.getLast?_eq_none_iff.mp hv) h
    | some v => exact ⟨v, rfl⟩
  have hlen : 1 ≤ voxel_sizes.length := by
    cases voxel_sizes with
    | nil => exact absurd rfl h
    | cons a l => simp
  have hbp : buildPyramid vds full voxel_sizes =
      downChain vds voxel_sizes.dropLast
        (if vlast = -1 then full else vds full vlast) := by
    rw [buildPyramid, hlast]
  refine ⟨?_, ⟨vlast, hlast, ?_⟩, ?_⟩
  · rw [hbp, downChain_length, List.length_dropLast]
    omega
  · rw [hbp, downChain_getLast]
  · intro k hk
    have hk' : k < voxel_sizes.dropLast.length := by
      rw [List.length_dropLast]
      omega
    obtain ⟨u, h1, h2⟩ := downChain_step vds voxel_sizes.dropLast _ k hk'
    refine ⟨u, ?_, ?_⟩
    · rw [hbp]
      exact h1
    · rw [hbp, h2, getD_dropLast _ _ _ hk]

/-- Witness for C8's amended theorem at a concrete configuration whose
finest scale carries the sentinel. -/
theorem buildPyramid_structure_witness :
    (buildPyramid (fun (c : Nat) (_ : ℤ) => c + 10) 5 [2, -1]).length =
        ([2, -1] : List ℤ).length ∧
    (∃ vlast, ([2, -1] : List ℤ).getLast? = some vlast ∧
      (buildPyramid (fun (c : Nat) (_ : ℤ) => c + 10) 5 [2, -1]).getLast? =
        some (if vlast = -1 then 5 else 5 + 10)) ∧
    (∀ k, k + 1 < ([2, -1] : List ℤ).length →
      ∃ u, (buildPyramid (fun (c : Nat) (_ : ℤ) => c + 10) 5 [2, -1])[k + 1]? =
          some u ∧
        (buildPyramid (fun (c : Nat) (_ : ℤ) => c + 10) 5 [2, -1])[k]? =
          some (u + 10)) :=
  buildPyramid_structure (fun (c : Nat) (_ : ℤ) => c + 10) 5 [2, -1]
    (by decide)

/-- Counterexample to claim C5 as stated: one source point at the
origin, one target point at squared distance 100, max_distance 1 — no
source point matches (`matched_count == 0`), yet the returned result is
not a NaN-guarded sentinel: the code executes
`sqrt(squared_error / matched_count)` with divisor 0, so the inlier
RMSE is NaN (modelled `none`); only the fitness is a harmless 0. -/
theorem registration_zero_matches_nan_cex :
    (GetRegistrationResultAndCorrespondences [[0, 0, 0]] [[10, 0, 0]]
        (1 : ℚ)).correspondences = [] ∧
    (GetRegistrationResultAndCorrespondences [[0, 0, 0]] [[10, 0, 0]]
        (1 : ℚ)).fitness = some 0 ∧
    (GetRegistrationResultAndCorrespondences [[0, 0, 0]] [[10, 0, 0]]
        (1 : ℚ)).inlierRmseSq = none := by
  have hcorr :
      buildCorrespondences [[0, 0, 0]] [[10, 0, 0]] (1 : ℚ) = [] := by
    norm_num [buildCorrespondences, hybrid1NN, sortPairs, sqDist,
      List.insertionSort, List.orderedInsert]
  refine ⟨?_, ?_, ?_⟩ <;>
    norm_num [GetRegistrationResultAndCorrespondences, hcorr, fdiv]

/-- Claim C5 (amended): when zero source points match within a positive
max_distance (and the source is non-empty), the returned result has
fitness 0 and an empty correspondence set, but the division by
matched_count IS executed with a zero divisor: the inlier RMSE is NaN
(modelled `none`), not a defined or NaN-guarded sentinel.  Only the
max_distance <= 0 short-circuit returns the fully defined sentinel
(fitness 0, RMSE 0, empty correspondence set). -/
theorem registration_zero_matches (source target : List (Pt F)) (md : F) :
    (md ≤ 0 →
      GetRegistrationResultAndCorrespondences source target md =
        ⟨some 0, some 0, []⟩) ∧
    (0 < md → source ≠ [] →
      buildCorrespondences source target md = [] →
      GetRegistrationResultAndCorrespondences source target md =
        ⟨some 0, none, []⟩) := by
  constructor
  · intro h
    rw [GetRegistrationResultAndCorrespondences, if_pos h]
  · intro hmd hsrc hcorr
    have hlen : ((source.length : F)) ≠ 0 := by
      rw [Ne, Nat.cast_eq_zero, List.length_eq_zero]
      exact hsrc
    rw [GetRegistrationResultAndCorrespondences, if_neg (not_le.mpr hmd),
      hcorr]
    simp [fdiv, hlen]

/-- Witness for C5's amended theorem: a concrete no-match configuration
(source at the origin, target at squared distance 25, max_distance 2)
yields fitness 0, NaN RMSE and no correspondences, and a non-positive
max_distance yields the defined sentinel. -/
theorem registration_zero_matches_witness :
    ((-1 : ℚ) ≤ 0 →
      GetRegistrationResultAndCorrespondences [[0, 0, 0]] [[5, 0, 0]]
        (-1 : ℚ) = ⟨some 0, some 0, []⟩) ∧
    ((0 : ℚ) < 2 → ([[0, 0, 0]] : List (Pt ℚ)) ≠ [] →
      buildCorrespondences [[0, 0, 0]] [[5, 0, 0]] (2 : ℚ) = [] →
      GetRegistrationResultAndCorrespondences [[0, 0, 0]] [[5, 0, 0]]
        (2 : ℚ) = ⟨some 0, none, []⟩) ∧
    buildCorrespondences [[0, 0, 0]] [[5, 0, 0]] (2 : ℚ) = [] ∧
    GetRegistrationResultAndCorrespondences [[0, 0, 0]] [[5, 0, 0]]
      (2 : ℚ) = ⟨some 0, none, []⟩ := by
  have hc : buildCorrespondences [[0, 0, 0]] [[5, 0, 0]] (2 : ℚ) = [] := by
    norm_num [buildCorrespondences, hybrid1NN, sortPairs, sqDist,
      List.insertionSort, List.orderedInsert]
  refine ⟨(registration_zero_matches [[0, 0, 0]] [[5, 0, 0]] (-1 : ℚ)).1,
    (registration_zero_matches [[0, 0, 0]] [[5, 0, 0]] (2 : ℚ)).2, hc,
    (registration_zero_matches [[0, 0, 0]] [[5, 0, 0]] (2 : ℚ)).2
      (by norm_num) (by simp) hc⟩

/-- Claim C10: for every query on a built index, SearchNNChain's result
begins with the pair (index 0, squared distance 0) regardless of the
query — the result vectors are value-initialized with one zero element
before any matches are appended, so the returned count is one greater
than the number of matched entries (the filterMap over the visited
set); likewise index 0 is pre-marked as visited (it is always in the
visited set), and the deduplication never adds an index already marked
visited — in particular never index 0 — to the frontier. -/
theorem searchNNChain_zero_artifact :
    (∀ (t : KDTreeFlann α) (query : Pt α) (radiusLocal : α)
        (chainLength : Int), t.data_ ≠ [] → t.dataset_size_ ≠ 0 →
      query.length = t.dimension_ →
      t.SearchNNChain query radiusLocal chainLength =
        some ((0, 0) ::
          (chainVisited t query radiusLocal chainLength).filterMap fun ind =>
            (bigRadiusPairs t query radiusLocal chainLength).find? fun p =>
              p.1 == ind)) ∧
    (∀ (t : KDTreeFlann α) (query : Pt α) (radiusLocal : α)
        (chainLength : Int),
      0 ∈ chainVisited t query radiusLocal chainLength) ∧
    (∀ (valid next inds : List Nat), 0 ∈ valid →
      0 ∈ (inds.foldl dedupAccum (valid, next)).1 ∧
      0 ∉ (inds.foldl dedupAccum (valid, [])).2) := by
  refine ⟨?_, ?_, ?_⟩
  · intro t query radiusLocal chainLength h1 h2 h3
    rw [KDTreeFlann.SearchNNChain, if_neg (by push_neg; exact ⟨h1, h2, h3⟩)]
  · intro t query radiusLocal chainLength
    exact zero_mem_chainLoop t _ _ _ 0 [0] [0] (List.mem_singleton.mpr rfl)
  · intro valid next inds h
    constructor
    · rw [foldl_dedupAccum]
      exact List.mem_append_left _ h
    · rw [foldl_dedupAccum]
      intro hmem
      rw [List.nil_append] at hmem
      exact (mem_dedupNew.mp hmem).2 h

/-- Witness for C10 at a concrete two-point index and a query away from
point 0, plus a concrete deduplication fold. -/
theorem searchNNChain_zero_artifact_witness :
    (⟨3, 2, ([0, 0, 0, 9, 9, 9] : List ℤ)⟩ :
        KDTreeFlann ℤ).SearchNNChain [1, 0, 0] 1 2 =
      some ((0, 0) ::
        (chainVisited (⟨3, 2, [0, 0, 0, 9, 9, 9]⟩ : KDTreeFlann ℤ)
            [1, 0, 0] 1 2).filterMap fun ind =>
          (bigRadiusPairs (⟨3, 2, [0, 0, 0, 9, 9, 9]⟩ : KDTreeFlann ℤ)
            [1, 0, 0] 1 2).find? fun p => p.1 == ind) ∧
    (0 ∈ chainVisited (⟨3, 2, ([0, 0, 0, 9, 9, 9] : List ℤ)⟩ :
        KDTreeFlann ℤ) [1, 0, 0] 1 2) ∧
    (0 ∈ (([1, 0, 2] : List Nat).foldl dedupAccum ([0], [5])).1 ∧
      0 ∉ (([1, 0, 2] : List Nat).foldl dedupAccum ([0], [])).2) :=
  ⟨(searchNNChain_zero_artifact (α := ℤ)).1 _ _ _ _ (by decide) (by decide)
      (by decide),
    (searchNNChain_zero_artifact (α := ℤ)).2.1 _ _ _ _,
    (searchNNChain_zero_artifact (α := ℤ)).2.2 [0] [5] [1, 0, 2]
      (List.mem_singleton.mpr rfl)⟩

/-- Counterexample to claim C2 as stated: dataset p0 = (100,0,0),
p1 = (0,0,0), p2 = (2,0,0), query at the origin, radiusLocal 1,
chainLength 2.  The hop expansion reaches only p1, and the bounding
radius search (squared radius 4) returns p1 and p2, so the claimed
result set is exactly {(1, 0)}; the actual result additionally starts
with the artifact pair (0, 0) even though point 0 is at squared
distance 10000 from the query — neither reachable in hops nor inside
the bounding radius. -/
theorem searchNNChain_exact_set_cex :
    (⟨3, 3, ([100, 0, 0, 0, 0, 0, 2, 0, 0] : List ℤ)⟩ :
        KDTreeFlann ℤ).SearchNNChain [0, 0, 0] 1 2 =
      some [(0, 0), (1, 0)] ∧
    sqDist ([0, 0, 0] : Pt ℤ)
      ((⟨3, 3, ([100, 0, 0, 0, 0, 0, 2, 0, 0] : List ℤ)⟩ :
        KDTreeFlann ℤ).point 0) = 10000 := by
  constructor <;> decide

/-- Claim C2 (amended): for every built 3-dimensional index, seed query
q, radiusLocal r > 0 and chainLength n >= 1, SearchNNChain returns the
artifact pair (0, 0) followed by exactly the pairs (index, squared
distance to q) of those indices that the hop expansion visits — with
index 0 pre-marked as visited, so it is in the visited set without
being reached and is never expanded — and whose squared distance to q
is strictly below (r*n)^2 (membership in the single bounding radius
search). -/
theorem searchNNChain_members (t : KDTreeFlann α) (query : Pt α)
    (radiusLocal : α) (chainLength : Int) (h1 : t.data_ ≠ [])
    (h2 : t.dataset_size_ ≠ 0) (h3 : t.dimension_ = 3)
    (h4 : query.length = t.dimension_) (hr : 0 < radiusLocal)
    (hn : 1 ≤ chainLength) :
    ∃ tail, t.SearchNNChain query radiusLocal chainLength =
        some ((0, 0) :: tail) ∧
      ∀ p : Nat × α, p ∈ tail ↔
        (p.1 ∈ chainVisited t query radiusLocal chainLength ∧
          p.1 < t.dataset_size_ ∧ p.2 = sqDist query (t.point p.1) ∧
          p.2 < radiusLocal * radiusLocal * (chainLength : α) *
            (chainLength : α)) := by
  refine ⟨(chainVisited t query radiusLocal chainLength).filterMap fun ind =>
    (bigRadiusPairs t query radiusLocal chainLength).find? fun p =>
      p.1 == ind, ?_, ?_⟩
  · rw [KDTreeFlann.SearchNNChain, if_neg (by push_neg; exact ⟨h1, h2, h4⟩)]
  · intro p
    constructor
    · intro hp
      rcases List.mem_filterMap.mp hp with ⟨ind, hind, hfind⟩
      have hp1 : p.1 = ind := by
        have := List.find?_some hfind
        simpa using this
      have hmem := List.mem_of_find?_eq_some hfind
      rw [bigRadiusPairs] at hmem
      have hc := mem_radiusSearchPairs.mp hmem
      exact ⟨hp1 ▸ hind, hc.1, hc.2.1, hc.2.2⟩
    · rintro ⟨hv, hlt, hdist, hrad⟩
      refine List.mem_filterMap.mpr ⟨p.1, hv, ?_⟩
      rw [bigRadiusPairs]
      apply find_key_of_mem (radius_keyNodup t query _)
      exact mem_radiusSearchPairs.mpr ⟨hlt, hdist, hrad⟩

/-- Witness for C2's amended theorem on a four-point chain dataset. -/
theorem searchNNChain_members_witness :
    ∃ tail, (⟨3, 4, ([5, 0, 0, 0, 0, 0, 1, 0, 0, 2, 0, 0] : List ℤ)⟩ :
        KDTreeFlann ℤ).SearchNNChain [0, 0, 0] 2 2 =
        some ((0, 0) :: tail) ∧
      ∀ p : Nat × ℤ, p ∈ tail ↔
        (p.1 ∈ chainVisited (⟨3, 4, [5, 0, 0, 0, 0, 0, 1, 0, 0, 2, 0, 0]⟩ :
            KDTreeFlann ℤ) [0, 0, 0] 2 2 ∧
          p.1 < (⟨3, 4, [5, 0, 0, 0, 0, 0, 1, 0, 0, 2, 0, 0]⟩ :
            KDTreeFlann ℤ).dataset_size_ ∧
          p.2 = sqDist [0, 0, 0]
            ((⟨3, 4, [5, 0, 0, 0, 0, 0, 1, 0, 0, 2, 0, 0]⟩ :
              KDTreeFlann ℤ).point p.1) ∧
          p.2 < 2 * 2 * ((2 : Int) : ℤ) * ((2 : Int) : ℤ)) :=
  searchNNChain_members ⟨3, 4, [5, 0, 0, 0, 0, 0, 1, 0, 0, 2, 0, 0]⟩
    [0, 0, 0] 2 2 (by decide) (by decide) (by decide) (by decide)
    (by decide) (by decide)

theorem filterMap_singleton {β γ : Type} (f : β → Option γ) (b : β) :
    [b].filterMap f = (f b).toList := by
  cases h : f b <;> simp [List.filterMap_cons, h]

theorem chainVisited_one (t : KDTreeFlann α) (query : Pt α) (radius : α)
    (hq : query.length = 3) :
    chainVisited t query radius 1 =
      [0] ++ dedupNew [0]
        ((radiusSearchPairs t query (radius * radius)).map Prod.fst) := by
  have hq3 : query.take 3 = query := by
    rw [← hq, List.take_length]
  rw [chainVisited, hq3]
  show ((((radiusSearchPairs t query (radius * radius)).map Prod.fst) ++
      []).foldl dedupAccum ([0], [])).1 = _
  rw [List.append_nil, foldl_dedupAccum]

/-- Counterexample to claim C3 as stated: on a one-point dataset with
the query at that point and radius 1, plain radius search returns one
pair (0, 0) while chained-radius search with chainLength 1 returns two
pairs — the artifact zero entry followed by the genuine match — so the
two results do not have the same count. -/
theorem chain_one_vs_radius_cex :
    (⟨3, 1, ([0, 0, 0] : List ℤ)⟩ : KDTreeFlann ℤ).SearchRadius
        [0, 0, 0] 1 = some [(0, 0)] ∧
    (⟨3, 1, ([0, 0, 0] : List ℤ)⟩ : KDTreeFlann ℤ).SearchNNChain
        [0, 0, 0] 1 1 = some [(0, 0), (0, 0)] ∧
    (⟨3, 1, ([0, 0, 0] : List ℤ)⟩ : KDTreeFlann ℤ).SearchNNChain
        [0, 0, 0] 1 1 ≠
      (⟨3, 1, ([0, 0, 0] : List ℤ)⟩ : KDTreeFlann ℤ).SearchRadius
        [0, 0, 0] 1 := by
  refine ⟨?_, ?_, ?_⟩ <;> decide

/-- Claim C3 (amended): for every built 3-dimensional index, query of
matching dimension and radius r > 0, chained-radius search with
chainLength 1 and radiusLocal r returns the plain radius search result
prefixed with the artifact pair (0, 0) and with the entry for index 0
(when present) moved to the front — same genuine indices and squared
distances, but count one larger and order permuted at index 0. -/
theorem chain_single_hop_radius (t : KDTreeFlann α) (query : Pt α)
    (radius : α) (h1 : t.data_ ≠ []) (h2 : t.dataset_size_ ≠ 0)
    (h3 : t.dimension_ = 3) (h4 : query.length = t.dimension_)
    (hr : 0 < radius) :
    ∃ res, t.SearchRadius query radius = some res ∧
      t.SearchNNChain query radius 1 =
        some ((0, 0) :: (res.filter (fun p => p.1 == 0) ++
          res.filter fun p => !(p.1 == 0))) := by
  have hnd := radius_keyNodup t query (radius * radius)
  refine ⟨radiusSearchPairs t query (radius * radius), ?_, ?_⟩
  · rw [KDTreeFlann.SearchRadius, if_neg (by push_neg; exact ⟨h1, h2, h4⟩)]
  · rw [KDTreeFlann.SearchNNChain, if_neg (by push_neg; exact ⟨h1, h2, h4⟩)]
    have hbig : bigRadiusPairs t query radius 1 =
        radiusSearchPairs t query (radius * radius) := by
      rw [bigRadiusPairs]
      norm_num
    have hvis := chainVisited_one t query radius (h3 ▸ h4)
    rw [hbig, hvis]
    refine congrArg some (congrArg (List.cons ((0 : Nat), (0 : α))) ?_)
    rw [List.filterMap_append]
    congr 1
    · rw [filterMap_singleton, find_key_toList hnd 0]
    · rw [dedupNew_eq_filter hnd [0]]
      have hpred : (fun i : Nat => decide (i ∉ ([0] : List Nat))) =
          fun i => !(i == 0) := by
        funext i
        by_cases h : i = 0 <;> simp [h]
      rw [hpred]
      exact filterMap_find_filter_keys hnd _

/-- Witness for C3's amended theorem on a two-point index where point 0
is inside the search radius (so its entry moves to the front). -/
theorem chain_single_hop_radius_witness :
    ∃ res, (⟨3, 2, ([1, 0, 0, 0, 0, 0] : List ℤ)⟩ :
        KDTreeFlann ℤ).SearchRadius [0, 0, 0] 2 = some res ∧
      (⟨3, 2, ([1, 0, 0, 0, 0, 0] : List ℤ)⟩ :
        KDTreeFlann ℤ).SearchNNChain [0, 0, 0] 2 1 =
        some ((0, 0) :: (res.filter (fun p => p.1 == 0) ++
          res.filter fun p => !(p.1 == 0))) :=
  chain_single_hop_radius ⟨3, 2, [1, 0, 0, 0, 0, 0]⟩ [0, 0, 0] 2
    (by decide) (by decide) (by decide) (by decide) (by decide)
